import Mathlib

/-!
Verification of the cart engine of the maisha-boutique backend.

The embedding below translates the cart schema and the cart route handlers
of `src/auth.js` (the `backend/routes/cart.js` part) into Lean:

* `CartItem`, `Cart`, `Store` mirror the mongoose cart schema and the
  collection of cart documents; `Store.nextId` models fresh `_id` generation.
* `recompute` is the `cartSchema.pre("save")` hook that sets
  `totalPrice = Σ item.price * item.quantity` on every save.
* `userPred` / `sessionPred` / `keyPred` mirror the
  `Cart.findOne({user, status: "active"})` /
  `Cart.findOne({sessionId, status: "active"})` lookups, including the JS
  truthiness test `user ? ... : ...` (an empty string is falsy) and
  mongoose dropping an `undefined` query field.
* `addItem`, `getCart`, `updateQuantity`, `removeItem`, `clearCart`,
  `merge`, `checkout` are the seven route handlers; request fields that may
  be absent in the JSON body are `Option`-typed, and the JS falsiness check
  `if (!name || !price)` is translated literally (absent, empty string, or
  zero all fail it).

Prices and quantities are modelled as `Int` (the JS handlers only ever add
and multiply them).
-/

namespace MaishaCart

/-- One cart line, mirroring the `items` subdocument of `cartSchema`:
`{name, price, image?, quantity}`. -/
structure CartItem where
  name : String
  price : Int
  image : Option String
  quantity : Int
deriving DecidableEq, Repr

/-- Cart status enum of `cartSchema`: `["active", "ordered", "abandoned"]`. -/
inductive CartStatus where
  | active
  | ordered
  | abandoned
deriving DecidableEq, Repr

/-- A cart document. `id` models the mongo `_id`; `user` and `sessionId`
are both optional exactly as in `cartSchema` (guest carts allowed). -/
structure Cart where
  id : Nat
  user : Option String
  sessionId : Option String
  items : List CartItem
  totalPrice : Int
  status : CartStatus
deriving DecidableEq, Repr

/-- The cart collection plus a fresh-id counter for newly created documents. -/
structure Store where
  carts : List Cart
  nextId : Nat
deriving DecidableEq, Repr

/-- HTTP error outcomes the cart handlers can produce (400 and 404). -/
inductive ApiError where
  | badRequest
  | notFound
deriving DecidableEq, Repr

/-- `this.items.reduce((acc, item) => acc + item.price * item.quantity, 0)`
from the `pre("save")` hook. -/
def itemsTotal (items : List CartItem) : Int :=
  items.foldl (fun acc i => acc + i.price * i.quantity) 0

/-- The `cartSchema.pre("save")` hook: recompute `totalPrice` from the items
before every save. -/
def recompute (c : Cart) : Cart :=
  { c with totalPrice := itemsTotal c.items }

/-- Predicate of `Cart.findOne({user, status: "active"})`. -/
def userPred (u : String) (c : Cart) : Bool :=
  decide (c.user = some u ∧ c.status = CartStatus.active)

/-- Predicate of `Cart.findOne({sessionId, status: "active"})`.  When the
request carries no `sessionId`, mongoose drops the `undefined` field from
the query, so only the status filter remains. -/
def sessionPred : Option String → Cart → Bool
  | some v => fun c => decide (c.sessionId = some v ∧ c.status = CartStatus.active)
  | none => fun c => decide (c.status = CartStatus.active)

/-- The lookup every handler performs:
`user ? Cart.findOne({user, status}) : Cart.findOne({sessionId, status})`.
A present-but-empty `user` string is falsy in JS, hence the inner test. -/
def keyPred (user sessionId : Option String) : Cart → Bool :=
  match user with
  | some u => if u = "" then sessionPred sessionId else userPred u
  | none => sessionPred sessionId

/-- `Cart.findOne({user, status: "active"})` over the collection (first match
in natural order). -/
def findActiveByUser (s : Store) (u : String) : Option Cart :=
  s.carts.find? (userPred u)

/-- `Cart.findOne({sessionId, status: "active"})` over the collection. -/
def findActiveBySession (s : Store) (sid : Option String) : Option Cart :=
  s.carts.find? (sessionPred sid)

/-- The `let cart = user ? ... : ...` lookup shared by the handlers. -/
def findCartFor (s : Store) (user sessionId : Option String) : Option Cart :=
  s.carts.find? (keyPred user sessionId)

/-- Saving an existing document: the pre-save hook runs, then the document
replaces the stored one with the same `_id`. -/
def saveExisting (s : Store) (c : Cart) : Store × Cart :=
  let c2 := recompute c
  ({ s with carts := s.carts.map (fun d => if d.id = c2.id then c2 else d) }, c2)

/-- `cart.items[existingIndex].quantity += q` where `existingIndex` is the
first index whose `name` matches: bump the first matching line's quantity. -/
def bumpFirst (n : String) (q : Int) : List CartItem → List CartItem
  | [] => []
  | i :: rest =>
    if i.name = n then { i with quantity := i.quantity + q } :: rest
    else i :: bumpFirst n q rest

/-- The item update of the `/cart/add` handler:
`findIndex` by name, then either bump the existing line's quantity or push
a new line `{name, price, image, quantity}`. -/
def addLine (items : List CartItem) (n : String) (p : Int)
    (img : Option String) (q : Int) : List CartItem :=
  if items.any (fun i => decide (i.name = n)) then bumpFirst n q items
  else items ++ [{ name := n, price := p, image := img, quantity := q }]

/-- `POST /cart/add`.  `if (!name || !price)` rejects an absent name, an
absent price, an empty-string name and a zero price alike (JS falsiness).
Otherwise it locates or creates the active cart for the key, updates the
line, and saves. -/
def addItem (s : Store) (user sessionId name : Option String)
    (price : Option Int) (image : Option String) (quantity : Int) :
    Except ApiError (Store × Cart) :=
  match name, price with
  | some n, some p =>
    if n = "" ∨ p = 0 then .error .badRequest
    else
      match findCartFor s user sessionId with
      | some c =>
        .ok (saveExisting s { c with items := addLine c.items n p image quantity })
      | none =>
        let c : Cart :=
          { id := s.nextId, user := user, sessionId := sessionId,
            items := [], totalPrice := 0, status := CartStatus.active }
        let c2 := recompute { c with items := addLine c.items n p image quantity }
        .ok ({ carts := s.carts ++ [c2], nextId := s.nextId + 1 }, c2)
  | _, _ => .error .badRequest

/-- The response body of `GET /cart`: either the found cart's data or the
literal `{ items: [], totalPrice: 0 }`. -/
structure CartView where
  items : List CartItem
  totalPrice : Int
deriving DecidableEq, Repr

/-- `GET /cart`: `data: cart || { items: [], totalPrice: 0 }` — always a 200,
never a not-found. -/
def getCart (s : Store) (user sessionId : Option String) : CartView :=
  match findCartFor s user sessionId with
  | some c => { items := c.items, totalPrice := c.totalPrice }
  | none => { items := [], totalPrice := 0 }

/-- `item.quantity = parseInt(quantity)` on the first line whose name
matches (`cart.items.find`). -/
def setQtyFirst (n : String) (q : Int) : List CartItem → List CartItem
  | [] => []
  | i :: rest =>
    if i.name = n then { i with quantity := q } :: rest
    else i :: setQtyFirst n q rest

/-- `PUT /cart/update`: 404 when no active cart, 404 when no line with the
given name, otherwise set that line's quantity and save. -/
def updateQuantity (s : Store) (user sessionId : Option String)
    (name : String) (quantity : Int) : Except ApiError (Store × Cart) :=
  match findCartFor s user sessionId with
  | none => .error .notFound
  | some c =>
    if c.items.any (fun i => decide (i.name = name)) then
      .ok (saveExisting s { c with items := setQtyFirst name quantity c.items })
    else .error .notFound

/-- `DELETE /cart/remove`: 404 when no active cart, otherwise
`cart.items = cart.items.filter(item => item.name !== name)` and save. -/
def removeItem (s : Store) (user sessionId : Option String) (name : String) :
    Except ApiError (Store × Cart) :=
  match findCartFor s user sessionId with
  | none => .error .notFound
  | some c =>
    .ok (saveExisting s { c with items := c.items.filter (fun i => decide (i.name ≠ name)) })

/-- `DELETE /cart/clear`: 404 when no active cart, otherwise `cart.items = []`
and save. -/
def clearCart (s : Store) (user sessionId : Option String) :
    Except ApiError (Store × Cart) :=
  match findCartFor s user sessionId with
  | none => .error .notFound
  | some c => .ok (saveExisting s { c with items := [] })

/-- One step of the guest-into-user item merge of `/cart/merge`:
`userCart.items.find` by the guest line's name, bump its quantity when
found, otherwise push the guest line. -/
def mergeOne (acc : List CartItem) (g : CartItem) : List CartItem :=
  if acc.any (fun i => decide (i.name = g.name)) then bumpFirst g.name g.quantity acc
  else acc ++ [g]

/-- `guestCart.items.forEach(...)` folding every guest line into the user
cart's items. -/
def mergeItems (uItems gItems : List CartItem) : List CartItem :=
  gItems.foldl mergeOne uItems

/-- `Cart.deleteOne({_id: ...})`: delete the first (and, `_id` being unique,
only) document with the given id. -/
def deleteById (i : Nat) : List Cart → List Cart
  | [] => []
  | c :: rest => if c.id = i then rest else c :: deleteById i rest

/-- `POST /cart/merge`.  400 when `user` or `sessionId` is falsy; success
with no data when there is no guest cart; re-own the guest cart
(`owner := user`, `sessionId := null`) when the user has no active cart;
otherwise fold the guest lines into the user cart, save it, and delete the
guest cart. -/
def merge (s : Store) (user sessionId : Option String) :
    Except ApiError (Store × Option Cart) :=
  match user, sessionId with
  | some u, some sid =>
    if u = "" ∨ sid = "" then .error .badRequest
    else
      match findActiveBySession s (some sid) with
      | none => .ok (s, none)
      | some g =>
        match findActiveByUser s u with
        | none =>
          let r := saveExisting s { g with user := some u, sessionId := none }
          .ok (r.1, some r.2)
        | some uc =>
          let r := saveExisting s { uc with items := mergeItems uc.items g.items }
          .ok ({ r.1 with carts := deleteById g.id r.1.carts }, some r.2)
  | _, _ => .error .badRequest

/-- `POST /cart/checkout`: 404 when no active cart, otherwise
`cart.status = "ordered"` and save. -/
def checkout (s : Store) (user sessionId : Option String) :
    Except ApiError (Store × Cart) :=
  match findCartFor s user sessionId with
  | none => .error .notFound
  | some c => .ok (saveExisting s { c with status := CartStatus.ordered })

/-! Measures used to state the claims. -/

/-- The line names of an item list. -/
def namesOf (items : List CartItem) : List String :=
  items.map (fun i => i.name)

/-- Total quantity carried by the lines with a given name. -/
def qtyOf : List CartItem → String → Int
  | [], _ => 0
  | i :: rest, n => (if i.name = n then i.quantity else 0) + qtyOf rest n

/-- Price snapshot of the first line with a given name. -/
def priceOf (items : List CartItem) (n : String) : Option Int :=
  (items.find? (fun i => decide (i.name = n))).map (fun i => i.price)

/-- Every stored cart's `totalPrice` agrees with its items. -/
def totalsOK (s : Store) : Prop :=
  ∀ c ∈ s.carts, c.totalPrice = itemsTotal c.items

instance (s : Store) : Decidable (totalsOK s) :=
  inferInstanceAs (Decidable (∀ c ∈ s.carts, c.totalPrice = itemsTotal c.items))

/-! Concrete fixtures used by witnesses and counterexamples. -/

/-- The empty collection. -/
def emptyStore : Store := { carts := [], nextId := 0 }

/-- The cart produced by adding 3 pens at price 2 to session `s1`. -/
def penCart3 : Cart :=
  { id := 0, user := none, sessionId := some "s1",
    items := [{ name := "Pen", price := 2, image := none, quantity := 3 }],
    totalPrice := 6, status := CartStatus.active }

/-- The store after that first add. -/
def penStore3 : Store := { carts := [penCart3], nextId := 1 }

/-- The same cart after a second add of 2 pens. -/
def penCart5 : Cart :=
  { id := 0, user := none, sessionId := some "s1",
    items := [{ name := "Pen", price := 2, image := none, quantity := 5 }],
    totalPrice := 10, status := CartStatus.active }

/-- The store after the second add. -/
def penStore5 : Store := { carts := [penCart5], nextId := 1 }

/-! Basic facts about the save hook and the lookups. -/

theorem recompute_total (c : Cart) : (recompute c).totalPrice = itemsTotal c.items := rfl

theorem recompute_items (c : Cart) : (recompute c).items = c.items := rfl

theorem sessionPred_status {sid : Option String} {c : Cart}
    (h : sessionPred sid c = true) : c.status = CartStatus.active := by
  cases sid with
  | none => simpa [sessionPred, decide_eq_true_eq] using h
  | some v =>
    simp only [sessionPred, decide_eq_true_eq] at h
    exact h.2

theorem userPred_status {u : String} {c : Cart} (h : userPred u c = true) :
    c.status = CartStatus.active := by
  simp only [userPred, decide_eq_true_eq] at h
  exact h.2

theorem keyPred_status {user sid : Option String} {c : Cart}
    (h : keyPred user sid c = true) : c.status = CartStatus.active := by
  cases user with
  | none => exact sessionPred_status h
  | some u =>
    by_cases hu : u = "" <;> simp only [keyPred, hu, if_true, if_false, ite_true, ite_false] at h
    · exact sessionPred_status h
    · exact userPred_status h

theorem findCartFor_mem {s : Store} {user sid : Option String} {c : Cart}
    (h : findCartFor s user sid = some c) : c ∈ s.carts :=
  List.mem_of_find?_eq_some h

theorem findCartFor_active {s : Store} {user sid : Option String} {c : Cart}
    (h : findCartFor s user sid = some c) : c.status = CartStatus.active :=
  keyPred_status (List.find?_some h)

theorem findActiveBySession_mem {s : Store} {sid : Option String} {c : Cart}
    (h : findActiveBySession s sid = some c) : c ∈ s.carts :=
  List.mem_of_find?_eq_some h

theorem findActiveBySession_active {s : Store} {sid : Option String} {c : Cart}
    (h : findActiveBySession s sid = some c) : c.status = CartStatus.active :=
  sessionPred_status (List.find?_some h)

theorem findActiveByUser_mem {s : Store} {u : String} {c : Cart}
    (h : findActiveByUser s u = some c) : c ∈ s.carts :=
  List.mem_of_find?_eq_some h

theorem findActiveByUser_active {s : Store} {u : String} {c : Cart}
    (h : findActiveByUser s u = some c) : c.status = CartStatus.active :=
  userPred_status (List.find?_some h)

theorem saveExisting_fst_carts (s : Store) (c : Cart) :
    (saveExisting s c).1.carts
      = s.carts.map (fun d => if d.id = c.id then recompute c else d) := rfl

theorem saveExisting_snd (s : Store) (c : Cart) : (saveExisting s c).2 = recompute c := rfl

theorem totalsOK_saveExisting {s : Store} (c : Cart) (h : totalsOK s) :
    totalsOK (saveExisting s c).1 := by
  intro d hd
  rw [saveExisting_fst_carts] at hd
  rcases List.mem_map.1 hd with ⟨e, he, hde⟩
  by_cases hid : e.id = c.id
  · rw [if_pos hid] at hde
    subst hde
    rfl
  · rw [if_neg hid] at hde
    subst hde
    exact h e he

theorem totalsOK_append_recompute {s : Store} (c : Cart) (n : Nat) (h : totalsOK s) :
    totalsOK { carts := s.carts ++ [recompute c], nextId := n } := by
  intro d hd
  rcases List.mem_append.1 hd with hd | hd
  · exact h d hd
  · rw [List.mem_singleton] at hd
    subst hd
    rfl

/-! Facts about `deleteById` and replacement-by-id. -/

theorem mem_of_mem_deleteById {i : Nat} {l : List Cart} {d : Cart}
    (h : d ∈ deleteById i l) : d ∈ l := by
  induction l with
  | nil => simp [deleteById] at h
  | cons c rest ih =>
    simp only [deleteById] at h
    split at h
    · exact List.mem_cons_of_mem _ h
    · rcases List.mem_cons.1 h with h | h
      · exact h ▸ List.mem_cons_self _ _
      · exact List.mem_cons_of_mem _ (ih h)

theorem mem_deleteById_of_ne {i : Nat} {l : List Cart} {d : Cart}
    (hd : d ∈ l) (hne : d.id ≠ i) : d ∈ deleteById i l := by
  induction l with
  | nil => simp at hd
  | cons c rest ih =>
    rcases List.mem_cons.1 hd with h | h
    · subst h
      simp only [deleteById]
      rw [if_neg hne]
      exact List.mem_cons_self _ _
    · simp only [deleteById]
      split
      · exact h
      · exact List.mem_cons_of_mem _ (ih h)

theorem deleteById_id_ne_of_nodup {i : Nat} {l : List Cart}
    (hnd : (l.map Cart.id).Nodup) {d : Cart} (hd : d ∈ deleteById i l) :
    d.id ≠ i := by
  induction l with
  | nil => simp [deleteById] at hd
  | cons c rest ih =>
    simp only [List.map_cons, List.nodup_cons] at hnd
    simp only [deleteById] at hd
    split at hd
    · rename_i hc
      intro hdi
      apply hnd.1
      rw [hc, ← hdi]
      exact List.mem_map_of_mem Cart.id hd
    · rename_i hc
      rcases List.mem_cons.1 hd with h | h
      · subst h
        exact hc
      · exact ih hnd.2 h

theorem ids_map_replace (l : List Cart) (c : Cart) (i : Nat) (hci : c.id = i) :
    (l.map (fun d => if d.id = i then c else d)).map Cart.id = l.map Cart.id := by
  induction l with
  | nil => rfl
  | cons e rest ih =>
    simp only [List.map_cons, ih]
    by_cases hid : e.id = i
    · rw [if_pos hid, hci, hid]
    · rw [if_neg hid]

theorem mem_map_replace_of_ne {l : List Cart} {d : Cart} (hd : d ∈ l) {c : Cart} {i : Nat}
    (hne : d.id ≠ i) : d ∈ l.map (fun e => if e.id = i then c else e) := by
  have h := List.mem_map_of_mem (fun e => if e.id = i then c else e) hd
  simpa [hne] using h

theorem nodup_ids_saveExisting {s : Store} (h : (s.carts.map Cart.id).Nodup) (c : Cart) :
    ((saveExisting s c).1.carts.map Cart.id).Nodup := by
  rw [saveExisting_fst_carts, ids_map_replace s.carts (recompute c) c.id rfl]
  exact h

/-! Facts about names, quantities and prices of item lists. -/

theorem mem_namesOf_cons {i : CartItem} {rest : List CartItem} {n : String} :
    n ∈ namesOf (i :: rest) ↔ n = i.name ∨ n ∈ namesOf rest := by
  simp [namesOf]

theorem any_name_eq_true_iff {l : List CartItem} {n : String} :
    (l.any (fun i => decide (i.name = n)) = true) ↔ n ∈ namesOf l := by
  rw [List.any_eq_true]
  simp only [namesOf, List.mem_map, decide_eq_true_eq]

theorem bumpFirst_length (n : String) (q : Int) (l : List CartItem) :
    (bumpFirst n q l).length = l.length := by
  induction l with
  | nil => rfl
  | cons i rest ih =>
    simp only [bumpFirst]
    split
    · simp
    · simp only [List.length_cons, ih]

theorem namesOf_bumpFirst (n : String) (q : Int) (l : List CartItem) :
    namesOf (bumpFirst n q l) = namesOf l := by
  induction l with
  | nil => rfl
  | cons i rest ih =>
    simp only [bumpFirst]
    split
    · simp [namesOf]
    · simp only [namesOf, List.map_cons] at ih ⊢
      rw [ih]

theorem qtyOf_bumpFirst {n : String} (q : Int) {l : List CartItem} (m : String)
    (h : n ∈ namesOf l) :
    qtyOf (bumpFirst n q l) m = qtyOf l m + (if n = m then q else 0) := by
  induction l with
  | nil => simp [namesOf] at h
  | cons i rest ih =>
    simp only [bumpFirst]
    by_cases hi : i.name = n
    · rw [if_pos hi]
      simp only [qtyOf, hi]
      split_ifs <;> omega
    · rw [if_neg hi]
      have h2 : n ∈ namesOf rest := by
        rcases mem_namesOf_cons.1 h with h2 | h2
        · exact absurd h2.symm hi
        · exact h2
      simp only [qtyOf, ih h2]
      omega

theorem qtyOf_append (l : List CartItem) (g : CartItem) (m : String) :
    qtyOf (l ++ [g]) m = qtyOf l m + (if g.name = m then g.quantity else 0) := by
  induction l with
  | nil => simp [qtyOf]
  | cons i rest ih =>
    rw [List.cons_append]
    simp only [qtyOf]
    rw [ih]
    omega

theorem qtyOf_mergeOne (acc : List CartItem) (g : CartItem) (m : String) :
    qtyOf (mergeOne acc g) m = qtyOf acc m + (if g.name = m then g.quantity else 0) := by
  unfold mergeOne
  by_cases h : acc.any (fun i => decide (i.name = g.name)) = true
  · rw [if_pos h, qtyOf_bumpFirst g.quantity m (any_name_eq_true_iff.1 h)]
  · rw [if_neg h, qtyOf_append]

theorem qtyOf_mergeItems (gs : List CartItem) (acc : List CartItem) (m : String) :
    qtyOf (mergeItems acc gs) m = qtyOf acc m + qtyOf gs m := by
  induction gs generalizing acc with
  | nil => simp [mergeItems, qtyOf]
  | cons g gs ih =>
    show qtyOf (mergeItems (mergeOne acc g) gs) m = _
    rw [ih (mergeOne acc g), qtyOf_mergeOne]
    simp only [qtyOf]
    omega

theorem mem_namesOf_append (l : List CartItem) (g : CartItem) (m : String) :
    m ∈ namesOf (l ++ [g]) ↔ m ∈ namesOf l ∨ m = g.name := by
  simp [namesOf]

theorem mem_namesOf_mergeOne (acc : List CartItem) (g : CartItem) (m : String) :
    m ∈ namesOf (mergeOne acc g) ↔ m ∈ namesOf acc ∨ m = g.name := by
  unfold mergeOne
  by_cases h : acc.any (fun i => decide (i.name = g.name)) = true
  · rw [if_pos h, namesOf_bumpFirst]
    have hg : g.name ∈ namesOf acc := any_name_eq_true_iff.1 h
    constructor
    · exact Or.inl
    · rintro (h2 | h2)
      · exact h2
      · exact h2 ▸ hg
  · rw [if_neg h]
    exact mem_namesOf_append acc g m

theorem mem_namesOf_mergeItems (gs acc : List CartItem) (m : String) :
    m ∈ namesOf (mergeItems acc gs) ↔ m ∈ namesOf acc ∨ m ∈ namesOf gs := by
  induction gs generalizing acc with
  | nil => simp [mergeItems, namesOf]
  | cons g gs ih =>
    show m ∈ namesOf (mergeItems (mergeOne acc g) gs) ↔ _
    rw [ih, mem_namesOf_mergeOne, mem_namesOf_cons]
    tauto

theorem priceOf_cons (i : CartItem) (rest : List CartItem) (n : String) :
    priceOf (i :: rest) n = if i.name = n then some i.price else priceOf rest n := by
  by_cases h : i.name = n <;> simp [priceOf, List.find?, h]

theorem priceOf_bumpFirst (n : String) (q : Int) (l : List CartItem) (m : String) :
    priceOf (bumpFirst n q l) m = priceOf l m := by
  induction l with
  | nil => rfl
  | cons i rest ih =>
    simp only [bumpFirst]
    by_cases hi : i.name = n
    · rw [if_pos hi, priceOf_cons, priceOf_cons]
    · rw [if_neg hi, priceOf_cons, priceOf_cons, ih]

theorem priceOf_append_of_mem {l : List CartItem} {m : String}
    (h : m ∈ namesOf l) (l2 : List CartItem) :
    priceOf (l ++ l2) m = priceOf l m := by
  induction l with
  | nil => simp [namesOf] at h
  | cons i rest ih =>
    rw [List.cons_append, priceOf_cons, priceOf_cons]
    by_cases hi : i.name = m
    · rw [if_pos hi, if_pos hi]
    · rw [if_neg hi, if_neg hi]
      apply ih
      rcases mem_namesOf_cons.1 h with h2 | h2
      · exact absurd h2.symm hi
      · exact h2

theorem priceOf_mergeOne_of_mem {acc : List CartItem} {m : String}
    (h : m ∈ namesOf acc) (g : CartItem) :
    priceOf (mergeOne acc g) m = priceOf acc m := by
  unfold mergeOne
  by_cases ha : acc.any (fun i => decide (i.name = g.name)) = true
  · rw [if_pos ha, priceOf_bumpFirst]
  · rw [if_neg ha, priceOf_append_of_mem h]

theorem priceOf_mergeItems_of_mem (gs : List CartItem) {acc : List CartItem} {m : String}
    (h : m ∈ namesOf acc) :
    priceOf (mergeItems acc gs) m = priceOf acc m := by
  induction gs generalizing acc with
  | nil => rfl
  | cons g gs ih =>
    show priceOf (mergeItems (mergeOne acc g) gs) m = _
    rw [ih ((mem_namesOf_mergeOne acc g m).2 (Or.inl h)), priceOf_mergeOne_of_mem h]

theorem ok_pair_inj {α β γ : Type} {x : α × β} {a : α} {b : β}
    (h : (Except.ok x : Except γ (α × β)) = .ok (a, b)) : a = x.1 ∧ b = x.2 :=
  ⟨(congrArg Prod.fst (Except.ok.inj h)).symm, (congrArg Prod.snd (Except.ok.inj h)).symm⟩

theorem totalsOK_after_save {s : Store} (h : totalsOK s) (X : Cart) :
    totalsOK (saveExisting s X).1 ∧
      (saveExisting s X).2.totalPrice = itemsTotal (saveExisting s X).2.items :=
  ⟨totalsOK_saveExisting X h, rfl⟩

theorem totalsOK_delete (i : Nat) {s : Store} (h : totalsOK s) (n : Nat) :
    totalsOK { carts := deleteById i s.carts, nextId := n } := by
  intro d hd
  exact h d (mem_of_mem_deleteById hd)

/-- C1: every mutating cart operation persists through the
`cartSchema.pre("save")` hook, so `totalPrice` is recomputed from the items
on every mutation: if every stored cart's total matches its items before an
operation, the same holds for every stored cart after it, and the
saved-and-returned cart's `totalPrice` equals `Σ item.price * item.quantity`
over its items.  `totalPrice` is never written by any other path. -/
theorem C1_totalPrice_recomputed (s : Store) (h : totalsOK s) :
    (∀ user sid name price img q s2 c,
        addItem s user sid name price img q = .ok (s2, c) →
        totalsOK s2 ∧ c.totalPrice = itemsTotal c.items) ∧
    (∀ user sid name q s2 c,
        updateQuantity s user sid name q = .ok (s2, c) →
        totalsOK s2 ∧ c.totalPrice = itemsTotal c.items) ∧
    (∀ user sid name s2 c,
        removeItem s user sid name = .ok (s2, c) →
        totalsOK s2 ∧ c.totalPrice = itemsTotal c.items) ∧
    (∀ user sid s2 c,
        clearCart s user sid = .ok (s2, c) →
        totalsOK s2 ∧ c.totalPrice = itemsTotal c.items) ∧
    (∀ user sid s2 oc,
        merge s user sid = .ok (s2, oc) →
        totalsOK s2 ∧ ∀ c, oc = some c → c.totalPrice = itemsTotal c.items) ∧
    (∀ user sid s2 c,
        checkout s user sid = .ok (s2, c) →
        totalsOK s2 ∧ c.totalPrice = itemsTotal c.items) := by
  refine ⟨?_, ?_, ?_, ?_, ?_, ?_⟩
  · intro user sid name price img q s2 c heq
    unfold addItem at heq
    split at heq <;> try exact Except.noConfusion heq
    split at heq <;> try exact Except.noConfusion heq
    split at heq
    · obtain ⟨ha, hb⟩ := ok_pair_inj heq
      subst ha
      subst hb
      exact totalsOK_after_save h _
    · obtain ⟨ha, hb⟩ := ok_pair_inj heq
      subst ha
      subst hb
      exact ⟨totalsOK_append_recompute _ _ h, rfl⟩
  · intro user sid name q s2 c heq
    unfold updateQuantity at heq
    split at heq <;> try exact Except.noConfusion heq
    split at heq <;> try exact Except.noConfusion heq
    obtain ⟨ha, hb⟩ := ok_pair_inj heq
    subst ha
    subst hb
    exact totalsOK_after_save h _
  · intro user sid name s2 c heq
    unfold removeItem at heq
    split at heq <;> try exact Except.noConfusion heq
    obtain ⟨ha, hb⟩ := ok_pair_inj heq
    subst ha
    subst hb
    exact totalsOK_after_save h _
  · intro user sid s2 c heq
    unfold clearCart at heq
    split at heq <;> try exact Except.noConfusion heq
    obtain ⟨ha, hb⟩ := ok_pair_inj heq
    subst ha
    subst hb
    exact totalsOK_after_save h _
  · intro user sid s2 oc heq
    unfold merge at heq
    split at heq <;> try exact Except.noConfusion heq
    split at heq <;> try exact Except.noConfusion heq
    split at heq
    · obtain ⟨ha, hb⟩ := ok_pair_inj heq
      subst ha
      subst hb
      exact ⟨h, fun c hc => Option.noConfusion hc⟩
    · split at heq
      · obtain ⟨ha, hb⟩ := ok_pair_inj heq
        subst ha
        subst hb
        exact ⟨totalsOK_saveExisting _ h,
          fun c hc => by rw [← Option.some.inj hc]; rfl⟩
      · obtain ⟨ha, hb⟩ := ok_pair_inj heq
        subst ha
        subst hb
        refine ⟨totalsOK_delete _ (totalsOK_saveExisting _ h) _, ?_⟩
        intro c hc
        rw [← Option.some.inj hc]
        rfl
  · intro user sid s2 c heq
    unfold checkout at heq
    split at heq <;> try exact Except.noConfusion heq
    obtain ⟨ha, hb⟩ := ok_pair_inj heq
    subst ha
    subst hb
    exact totalsOK_after_save h _

/-- C1 witness: the invariant propagation at a concrete input — the empty
store satisfies the invariant, and adding 3 pens at price 2 yields a store
and cart that satisfy it. -/
theorem C1_witness :
    totalsOK emptyStore ∧
    (totalsOK penStore3 ∧ penCart3.totalPrice = itemsTotal penCart3.items) :=
  ⟨by decide,
   (C1_totalPrice_recomputed emptyStore (by decide)).1 none (some "s1") (some "Pen")
     (some 2) none 3 penStore3 penCart3 rfl⟩

/-- C4: the claim states that `addItem` does not fail with `BadRequest`
whenever both a name and a price are supplied, a price of `0` included.
The handler's falsiness test `if (!name || !price)` nevertheless treats a
supplied price of `0` as missing, so this input is rejected with 400
`BadRequest` against the claim (and against the handler's own message
"Name and price are required"). -/
theorem C4_price_zero_rejected :
    addItem emptyStore none (some "s1") (some "Pen") (some 0) none 1
      = .error .badRequest := rfl

/-- C5 counterexample: `addItem` on an empty store with a request carrying
both a `user` and a `sessionId` creates and persists a cart carrying BOTH
identifiers, refuting "exactly one of owner and sessionId identifies the
cart (never both set)". -/
theorem C5_counterexample :
    (addItem emptyStore (some "u1") (some "s1") (some "Pen") (some 2) none 1).toOption.map
        (fun r => (r.2.user, r.2.sessionId))
      = some (some "u1", some "s1") := rfl

/-- C5 (amended): the lookup of `addItem` uses only the `user` key when it
is truthy, but the cart created on a miss keeps BOTH request identifiers:
whenever a request carries a truthy user that has no active cart together
with a sessionId, the newly created cart has `user` and `sessionId` both
set and is persisted that way, so the exactly-one-identifier invariant is
not preserved by `addItem`. -/
theorem C5_amended_both_identifiers (s : Store) (u sid n : String) (p q : Int)
    (img : Option String) (hu : u ≠ "") (hn : n ≠ "") (hp : p ≠ 0)
    (hfind : findActiveByUser s u = none) :
    ∃ s2 c, addItem s (some u) (some sid) (some n) (some p) img q = .ok (s2, c) ∧
      c.user = some u ∧ c.sessionId = some sid ∧ c ∈ s2.carts := by
  have hkeypred : keyPred (some u) (some sid) = userPred u := by
    simp [keyPred, hu]
  have hkey : findCartFor s (some u) (some sid) = none := by
    unfold findCartFor
    rw [hkeypred]
    exact hfind
  have hrun : addItem s (some u) (some sid) (some n) (some p) img q
      = .ok (Store.mk (s.carts ++ [recompute (Cart.mk s.nextId (some u) (some sid)
              (addLine [] n p img q) 0 CartStatus.active)]) (s.nextId + 1),
             recompute (Cart.mk s.nextId (some u) (some sid)
              (addLine [] n p img q) 0 CartStatus.active)) := by
    simp only [addItem]
    rw [if_neg (by push_neg; exact ⟨hn, hp⟩), hkey]
  exact ⟨_, _, hrun, rfl, rfl, List.mem_append_right _ (List.mem_singleton_self _)⟩

/-- C5 witness: the amended statement applied at a concrete input. -/
theorem C5_witness :
    ("u1" : String) ≠ "" ∧ findActiveByUser emptyStore "u1" = none ∧
    (∃ s2 c, addItem emptyStore (some "u1") (some "s1") (some "Pen") (some 2) none 1
        = .ok (s2, c) ∧
      c.user = some "u1" ∧ c.sessionId = some "s1" ∧ c ∈ s2.carts) :=
  ⟨by decide, rfl,
   C5_amended_both_identifiers emptyStore "u1" "s1" "Pen" 2 1 none (by decide) (by decide)
     (by decide) rfl⟩

/-- C8: `GET /cart` never fails with a not-found error: when an active cart
exists for the key its items and total are returned, otherwise the empty
view `{items: [], totalPrice: 0}` is returned with success. -/
theorem C8_getCart_never_notFound (s : Store) (user sid : Option String) :
    (findCartFor s user sid = none →
      getCart s user sid = { items := [], totalPrice := 0 }) ∧
    (∀ c, findCartFor s user sid = some c →
      getCart s user sid = { items := c.items, totalPrice := c.totalPrice }) := by
  constructor
  · intro h
    simp [getCart, h]
  · intro c h
    simp [getCart, h]

/-- C8 witness: the spec's example — `getCart` for an unknown session is the
empty view, not a 404. -/
theorem C8_witness :
    getCart emptyStore none (some "unknown") = { items := [], totalPrice := 0 } :=
  (C8_getCart_never_notFound emptyStore none (some "unknown")).1 rfl

/-- C9: `DELETE /cart/remove` fails with `NotFound` exactly when no active
cart exists for the key; with an active cart present it removes every line
whose name matches and recomputes the total, and when no line matches it
succeeds with the cart's items unchanged. -/
theorem C9_removeItem_semantics (s : Store) (user sid : Option String) (name : String) :
    (findCartFor s user sid = none → removeItem s user sid name = .error .notFound) ∧
    (∀ c, findCartFor s user sid = some c →
      ∃ s2 c2, removeItem s user sid name = .ok (s2, c2) ∧
        c2.items = c.items.filter (fun i => decide (i.name ≠ name)) ∧
        c2.totalPrice = itemsTotal c2.items ∧
        (name ∉ namesOf c.items → c2.items = c.items)) := by
  constructor
  · intro h
    unfold removeItem
    rw [h]
  · intro c h
    have hrun : removeItem s user sid name
        = .ok (saveExisting s
            { c with items := c.items.filter (fun i => decide (i.name ≠ name)) }) := by
      unfold removeItem
      rw [h]
    refine ⟨_, _, hrun, rfl, rfl, ?_⟩
    intro hn
    show c.items.filter (fun i => decide (i.name ≠ name)) = c.items
    apply List.filter_eq_self.2
    intro i hi
    simp only [decide_eq_true_eq]
    intro hEq
    exact hn (hEq ▸ List.mem_map_of_mem _ hi)

/-- C9 witness: removing an absent name from an existing cart succeeds and
leaves the items unchanged. -/
theorem C9_witness :
    findCartFor penStore3 none (some "s1") = some penCart3 ∧
    (∃ s2 c2, removeItem penStore3 none (some "s1") "Pencil" = .ok (s2, c2) ∧
      c2.items = penCart3.items.filter (fun i => decide (i.name ≠ "Pencil")) ∧
      c2.totalPrice = itemsTotal c2.items ∧
      ("Pencil" ∉ namesOf penCart3.items → c2.items = penCart3.items)) :=
  ⟨rfl, (C9_removeItem_semantics penStore3 none (some "s1") "Pencil").2 penCart3 rfl⟩

theorem find?_userPred_replace {l : List Cart} {u : String} {g g2 : Cart} {i : Nat}
    (hmem : g ∈ l) (hgi : g.id = i)
    (hnone : ∀ d ∈ l, ¬ userPred u d = true)
    (h2 : userPred u g2 = true) :
    (l.map (fun d => if d.id = i then g2 else d)).find? (userPred u) = some g2 := by
  induction l with
  | nil => cases hmem
  | cons d rest ih =>
    simp only [List.map_cons]
    by_cases hid : d.id = i
    · rw [if_pos hid]
      exact List.find?_cons_of_pos _ h2
    · rw [if_neg hid]
      rw [List.find?_cons_of_neg _ (hnone d (List.mem_cons_self _ _))]
      apply ih
      · rcases List.mem_cons.1 hmem with h | h
        · exact absurd (by rw [← h]; exact hgi) hid
        · exact h
      · exact fun e he => hnone e (List.mem_cons_of_mem _ he)

/-- C3: `addItem` merges by line name: when the located active cart already
has a line with the requested name, that line's quantity increases by the
requested amount and no second line is created (the list of line names and
the line count are unchanged); when no line matches, exactly one new line
is appended.  In particular two successive pen adds (price 2, quantities 3
then 2) on session `s1` yield a single line with quantity 5 and
`totalPrice` 10. -/
theorem C3_addItem_merges_by_name :
    (∀ s user sid n p img q c, n ≠ "" → p ≠ 0 →
      findCartFor s user sid = some c →
      ∃ s2 c2, addItem s user sid (some n) (some p) img q = .ok (s2, c2) ∧
        (n ∈ namesOf c.items →
          c2.items = bumpFirst n q c.items ∧
          namesOf c2.items = namesOf c.items ∧
          c2.items.length = c.items.length ∧
          qtyOf c2.items n = qtyOf c.items n + q) ∧
        (n ∉ namesOf c.items →
          c2.items = c.items ++ [{ name := n, price := p, image := img, quantity := q }])) ∧
    (addItem emptyStore none (some "s1") (some "Pen") (some 2) none 3
        = .ok (penStore3, penCart3) ∧
     addItem penStore3 none (some "s1") (some "Pen") (some 2) none 2
        = .ok (penStore5, penCart5) ∧
     penCart5.items = [{ name := "Pen", price := 2, image := none, quantity := 5 }] ∧
     penCart5.totalPrice = 10) := by
  constructor
  · intro s user sid n p img q c hn hp hfind
    have hrun : addItem s user sid (some n) (some p) img q
        = .ok (saveExisting s { c with items := addLine c.items n p img q }) := by
      simp only [addItem]
      rw [if_neg (by push_neg; exact ⟨hn, hp⟩), hfind]
    refine ⟨_, _, hrun, ?_, ?_⟩
    · intro hmem
      have hany : c.items.any (fun i => decide (i.name = n)) = true :=
        any_name_eq_true_iff.2 hmem
      have hAL : addLine c.items n p img q = bumpFirst n q c.items := by
        unfold addLine
        rw [if_pos hany]
      refine ⟨?_, ?_, ?_, ?_⟩
      · show addLine c.items n p img q = bumpFirst n q c.items
        exact hAL
      · show namesOf (addLine c.items n p img q) = namesOf c.items
        rw [hAL, namesOf_bumpFirst]
      · show (addLine c.items n p img q).length = c.items.length
        rw [hAL, bumpFirst_length]
      · show qtyOf (addLine c.items n p img q) n = qtyOf c.items n + q
        rw [hAL, qtyOf_bumpFirst q n hmem]
        simp
    · intro hmem
      have hany : ¬ c.items.any (fun i => decide (i.name = n)) = true :=
        fun hx => hmem (any_name_eq_true_iff.1 hx)
      show addLine c.items n p img q = _
      unfold addLine
      rw [if_neg hany]
  · exact ⟨rfl, rfl, rfl, rfl⟩

/-- C3 witness: the general statement applied to the concrete pen cart. -/
theorem C3_witness :
    ("Pen" : String) ≠ "" ∧ (2 : Int) ≠ 0 ∧
    findCartFor penStore3 none (some "s1") = some penCart3 ∧
    (∃ s2 c2, addItem penStore3 none (some "s1") (some "Pen") (some 2) none 2
        = .ok (s2, c2) ∧
      ("Pen" ∈ namesOf penCart3.items →
        c2.items = bumpFirst "Pen" 2 penCart3.items ∧
        namesOf c2.items = namesOf penCart3.items ∧
        c2.items.length = penCart3.items.length ∧
        qtyOf c2.items "Pen" = qtyOf penCart3.items "Pen" + 2) ∧
      ("Pen" ∉ namesOf penCart3.items →
        c2.items = penCart3.items
          ++ [{ name := "Pen", price := 2, image := none, quantity := 2 }])) :=
  ⟨by decide, by decide, rfl,
   C3_addItem_merges_by_name.1 penStore3 none (some "s1") "Pen" 2 none 2 penCart3
     (by decide) (by decide) rfl⟩

/-- C6: merging when a guest cart exists and the user has no active cart
renames the guest cart in place: the same cart document (same id, no cart
created or copied, the store keeps its size) ends up owned by the user with
`sessionId` cleared and its lines unchanged, and the user key now resolves
to it. -/
theorem C6_merge_reowns_guest_cart (s : Store) (u sid : String) (g : Cart)
    (hu : u ≠ "") (hs : sid ≠ "")
    (hg : findActiveBySession s (some sid) = some g)
    (hnouser : findActiveByUser s u = none) :
    ∃ s2 g2, merge s (some u) (some sid) = .ok (s2, some g2) ∧
      g2.id = g.id ∧ g2.user = some u ∧ g2.sessionId = none ∧ g2.items = g.items ∧
      s2.carts = s.carts.map (fun d => if d.id = g.id then g2 else d) ∧
      s2.carts.length = s.carts.length ∧
      findActiveByUser s2 u = some g2 := by
  have hrun : merge s (some u) (some sid)
      = .ok ((saveExisting s { g with user := some u, sessionId := none }).1,
             some (saveExisting s { g with user := some u, sessionId := none }).2) := by
    simp only [merge]
    rw [if_neg (by push_neg; exact ⟨hu, hs⟩), hg, hnouser]
  have hgact : g.status = CartStatus.active := findActiveBySession_active hg
  have hpred : userPred u (recompute { g with user := some u, sessionId := none }) = true := by
    simp [userPred, recompute, hgact]
  refine ⟨_, _, hrun, rfl, rfl, rfl, rfl, rfl, ?_, ?_⟩
  · rw [saveExisting_fst_carts]
    exact List.length_map _ _
  · exact find?_userPred_replace (findActiveBySession_mem hg) rfl
      (List.find?_eq_none.1 hnouser) hpred

/-- C6 witness: re-owning the concrete guest pen cart for user `u1`. -/
theorem C6_witness :
    ("u1" : String) ≠ "" ∧ ("s1" : String) ≠ "" ∧
    findActiveBySession penStore3 (some "s1") = some penCart3 ∧
    findActiveByUser penStore3 "u1" = none ∧
    (∃ s2 g2, merge penStore3 (some "u1") (some "s1") = .ok (s2, some g2) ∧
      g2.id = penCart3.id ∧ g2.user = some "u1" ∧ g2.sessionId = none ∧
      g2.items = penCart3.items ∧
      s2.carts = penStore3.carts.map (fun d => if d.id = penCart3.id then g2 else d) ∧
      s2.carts.length = penStore3.carts.length ∧
      findActiveByUser s2 "u1" = some g2) :=
  ⟨by decide, by decide, rfl, rfl,
   C6_merge_reowns_guest_cart penStore3 "u1" "s1" penCart3 (by decide) (by decide) rfl rfl⟩

/-- A guest cart on session `s1` holding pens and ink. -/
def guestCartPen : Cart :=
  { id := 0, user := none, sessionId := some "s1",
    items := [{ name := "Pen", price := 2, image := none, quantity := 3 },
              { name := "Ink", price := 5, image := none, quantity := 1 }],
    totalPrice := 11, status := CartStatus.active }

/-- A user cart for `u1` holding pens. -/
def userCartPen : Cart :=
  { id := 1, user := some "u1", sessionId := none,
    items := [{ name := "Pen", price := 2, image := none, quantity := 4 }],
    totalPrice := 8, status := CartStatus.active }

/-- A store holding both carts. -/
def twoCartStore : Store := { carts := [guestCartPen, userCartPen], nextId := 2 }

/-- C2: merging when both carts exist combines by name: the resulting user
cart keeps the user cart's identity, its line names are exactly the union
of both carts' line names, the per-name quantity is the sum of the two
carts' per-name quantities (shared names sum, unshared names keep their
original quantity), and no cart with the guest cart's id remains in the
store afterwards. -/
theorem C2_merge_both_carts (s : Store) (u sid : String) (g uc : Cart)
    (hu : u ≠ "") (hs : sid ≠ "")
    (hg : findActiveBySession s (some sid) = some g)
    (huc : findActiveByUser s u = some uc)
    (hids : (s.carts.map Cart.id).Nodup) :
    ∃ s2 m, merge s (some u) (some sid) = .ok (s2, some m) ∧
      m.id = uc.id ∧ m.user = uc.user ∧
      m.items = mergeItems uc.items g.items ∧
      (∀ n, n ∈ namesOf m.items ↔ n ∈ namesOf uc.items ∨ n ∈ namesOf g.items) ∧
      (∀ n, qtyOf m.items n = qtyOf uc.items n + qtyOf g.items n) ∧
      (∀ d ∈ s2.carts, d.id ≠ g.id) := by
  have hrun : merge s (some u) (some sid)
      = .ok (Store.mk
          (deleteById g.id
            ((saveExisting s { uc with items := mergeItems uc.items g.items }).1.carts))
          ((saveExisting s { uc with items := mergeItems uc.items g.items }).1.nextId),
        some (saveExisting s { uc with items := mergeItems uc.items g.items }).2) := by
    simp only [merge]
    rw [if_neg (by push_neg; exact ⟨hu, hs⟩), hg, huc]
  refine ⟨_, _, hrun, rfl, rfl, rfl, ?_, ?_, ?_⟩
  · intro n
    show n ∈ namesOf (mergeItems uc.items g.items) ↔ _
    exact mem_namesOf_mergeItems _ _ _
  · intro n
    show qtyOf (mergeItems uc.items g.items) n = _
    exact qtyOf_mergeItems _ _ _
  · intro d hd
    exact deleteById_id_ne_of_nodup
      (nodup_ids_saveExisting hids { uc with items := mergeItems uc.items g.items }) hd

/-- C2 witness: merging the concrete guest (3 pens, 1 ink) and user
(4 pens) carts. -/
theorem C2_witness :
    ("u1" : String) ≠ "" ∧ ("s1" : String) ≠ "" ∧
    findActiveBySession twoCartStore (some "s1") = some guestCartPen ∧
    findActiveByUser twoCartStore "u1" = some userCartPen ∧
    (twoCartStore.carts.map Cart.id).Nodup ∧
    (∃ s2 m, merge twoCartStore (some "u1") (some "s1") = .ok (s2, some m) ∧
      m.id = userCartPen.id ∧ m.user = userCartPen.user ∧
      m.items = mergeItems userCartPen.items guestCartPen.items ∧
      (∀ n, n ∈ namesOf m.items
        ↔ n ∈ namesOf userCartPen.items ∨ n ∈ namesOf guestCartPen.items) ∧
      (∀ n, qtyOf m.items n
        = qtyOf userCartPen.items n + qtyOf guestCartPen.items n) ∧
      (∀ d ∈ s2.carts, d.id ≠ guestCartPen.id)) :=
  ⟨by decide, by decide, rfl, rfl, by decide,
   C2_merge_both_carts twoCartStore "u1" "s1" guestCartPen userCartPen
     (by decide) (by decide) rfl rfl (by decide)⟩

/-- User cart with a high pen price; the matching guest price is lower. -/
def hiUserCart : Cart :=
  { id := 1, user := some "u9", sessionId := none,
    items := [{ name := "Pen", price := 10, image := none, quantity := 1 }],
    totalPrice := 10, status := CartStatus.active }

/-- Guest cart with a low pen price. -/
def loGuestCart : Cart :=
  { id := 0, user := none, sessionId := some "s9",
    items := [{ name := "Pen", price := 1, image := none, quantity := 1 }],
    totalPrice := 1, status := CartStatus.active }

/-- Store pairing the low-price guest with the high-price user cart. -/
def hiUserStore : Store := { carts := [loGuestCart, hiUserCart], nextId := 2 }

/-- User cart with a low pen price; the matching guest price is higher. -/
def loUserCart : Cart :=
  { id := 1, user := some "u9", sessionId := none,
    items := [{ name := "Pen", price := 1, image := none, quantity := 1 }],
    totalPrice := 1, status := CartStatus.active }

/-- Guest cart with a high pen price. -/
def hiGuestCart : Cart :=
  { id := 0, user := none, sessionId := some "s9",
    items := [{ name := "Pen", price := 10, image := none, quantity := 1 }],
    totalPrice := 10, status := CartStatus.active }

/-- Store pairing the high-price guest with the low-price user cart. -/
def loUserStore : Store := { carts := [hiGuestCart, loUserCart], nextId := 2 }

/-- C10: merging keeps the user cart's price snapshot for a shared name and
discards the guest's: for every name present in the user cart, the merged
items' first-line price for that name is unchanged; consequently the merged
total can exceed the sum of the two prior totals (low guest price folded
into a high user price) or fall short of it (high guest price folded into a
low user price), as the two concrete merges show. -/
theorem C10_merge_keeps_user_price :
    (∀ uItems gItems n, n ∈ namesOf uItems →
      priceOf (mergeItems uItems gItems) n = priceOf uItems n) ∧
    ((merge hiUserStore (some "u9") (some "s9")).toOption.map
        (fun r => r.2.map Cart.totalPrice) = some (some 20) ∧
      loGuestCart.totalPrice + hiUserCart.totalPrice < 20) ∧
    ((merge loUserStore (some "u9") (some "s9")).toOption.map
        (fun r => r.2.map Cart.totalPrice) = some (some 2) ∧
      2 < hiGuestCart.totalPrice + loUserCart.totalPrice) := by
  refine ⟨?_, ⟨rfl, by decide⟩, ⟨rfl, by decide⟩⟩
  intro uItems gItems n hmem
  exact priceOf_mergeItems_of_mem gItems hmem

/-- C10 witness: the price-keeping statement applied to the concrete
high-price user cart. -/
theorem C10_witness :
    "Pen" ∈ namesOf hiUserCart.items ∧
    priceOf (mergeItems hiUserCart.items loGuestCart.items) "Pen"
      = priceOf hiUserCart.items "Pen" :=
  ⟨by decide,
   C10_merge_keeps_user_price.1 hiUserCart.items loGuestCart.items "Pen" (by decide)⟩

/-! Ordered carts are untouched by every handler: each handler only writes
carts located through an active-status query. -/

theorem ordered_ne_active_id {s : Store} (hnd : (s.carts.map Cart.id).Nodup)
    {o : Cart} (ho : o ∈ s.carts) (hord : o.status = CartStatus.ordered)
    {f : Cart} (hf : f ∈ s.carts) (hfact : f.status = CartStatus.active) :
    o.id ≠ f.id := by
  intro hoid
  have he := List.inj_on_of_nodup_map hnd ho hf hoid
  rw [he, hfact] at hord
  exact CartStatus.noConfusion hord

theorem ordered_mem_save {s : Store} (hnd : (s.carts.map Cart.id).Nodup)
    {o : Cart} (ho : o ∈ s.carts) (hord : o.status = CartStatus.ordered)
    {f : Cart} (hf : f ∈ s.carts) (hfact : f.status = CartStatus.active)
    (X : Cart) (hXid : X.id = f.id) :
    o ∈ (saveExisting s X).1.carts := by
  rw [saveExisting_fst_carts]
  apply mem_map_replace_of_ne ho
  rw [hXid]
  exact ordered_ne_active_id hnd ho hord hf hfact

theorem addItem_keeps_ordered {s : Store} (hnd : (s.carts.map Cart.id).Nodup)
    {o : Cart} (ho : o ∈ s.carts) (hord : o.status = CartStatus.ordered)
    {user sid name : Option String} {price : Option Int} {img : Option String} {q : Int}
    {s2 : Store} {c2 : Cart}
    (heq : addItem s user sid name price img q = .ok (s2, c2)) : o ∈ s2.carts := by
  unfold addItem at heq
  split at heq <;> try exact Except.noConfusion heq
  split at heq <;> try exact Except.noConfusion heq
  split at heq
  · rename_i c0 hfind
    obtain ⟨ha, hb⟩ := ok_pair_inj heq
    subst ha
    exact ordered_mem_save hnd ho hord (findCartFor_mem hfind)
      (findCartFor_active hfind) _ rfl
  · obtain ⟨ha, hb⟩ := ok_pair_inj heq
    subst ha
    exact List.mem_append_left _ ho

theorem updateQuantity_keeps_ordered {s : Store} (hnd : (s.carts.map Cart.id).Nodup)
    {o : Cart} (ho : o ∈ s.carts) (hord : o.status = CartStatus.ordered)
    {user sid : Option String} {name : String} {q : Int} {s2 : Store} {c2 : Cart}
    (heq : updateQuantity s user sid name q = .ok (s2, c2)) : o ∈ s2.carts := by
  unfold updateQuantity at heq
  split at heq <;> try exact Except.noConfusion heq
  rename_i c0 hfind
  split at heq <;> try exact Except.noConfusion heq
  obtain ⟨ha, hb⟩ := ok_pair_inj heq
  subst ha
  exact ordered_mem_save hnd ho hord (findCartFor_mem hfind)
    (findCartFor_active hfind) _ rfl

theorem removeItem_keeps_ordered {s : Store} (hnd : (s.carts.map Cart.id).Nodup)
    {o : Cart} (ho : o ∈ s.carts) (hord : o.status = CartStatus.ordered)
    {user sid : Option String} {name : String} {s2 : Store} {c2 : Cart}
    (heq : removeItem s user sid name = .ok (s2, c2)) : o ∈ s2.carts := by
  unfold removeItem at heq
  split at heq <;> try exact Except.noConfusion heq
  rename_i c0 hfind
  obtain ⟨ha, hb⟩ := ok_pair_inj heq
  subst ha
  exact ordered_mem_save hnd ho hord (findCartFor_mem hfind)
    (findCartFor_active hfind) _ rfl

theorem clearCart_keeps_ordered {s : Store} (hnd : (s.carts.map Cart.id).Nodup)
    {o : Cart} (ho : o ∈ s.carts) (hord : o.status = CartStatus.ordered)
    {user sid : Option String} {s2 : Store} {c2 : Cart}
    (heq : clearCart s user sid = .ok (s2, c2)) : o ∈ s2.carts := by
  unfold clearCart at heq
  split at heq <;> try exact Except.noConfusion heq
  rename_i c0 hfind
  obtain ⟨ha, hb⟩ := ok_pair_inj heq
  subst ha
  exact ordered_mem_save hnd ho hord (findCartFor_mem hfind)
    (findCartFor_active hfind) _ rfl

theorem merge_keeps_ordered {s : Store} (hnd : (s.carts.map Cart.id).Nodup)
    {o : Cart} (ho : o ∈ s.carts) (hord : o.status = CartStatus.ordered)
    {user sid : Option String} {s2 : Store} {oc : Option Cart}
    (heq : merge s user sid = .ok (s2, oc)) : o ∈ s2.carts := by
  unfold merge at heq
  split at heq <;> try exact Except.noConfusion heq
  split at heq <;> try exact Except.noConfusion heq
  split at heq
  · obtain ⟨ha, hb⟩ := ok_pair_inj heq
    subst ha
    exact ho
  · rename_i g hg
    split at heq
    · obtain ⟨ha, hb⟩ := ok_pair_inj heq
      subst ha
      exact ordered_mem_save hnd ho hord (findActiveBySession_mem hg)
        (findActiveBySession_active hg) _ rfl
    · rename_i uc huc
      obtain ⟨ha, hb⟩ := ok_pair_inj heq
      subst ha
      apply mem_deleteById_of_ne
      · exact ordered_mem_save hnd ho hord (findActiveByUser_mem huc)
          (findActiveByUser_active huc) _ rfl
      · exact ordered_ne_active_id hnd ho hord (findActiveBySession_mem hg)
          (findActiveBySession_active hg)

theorem checkout_keeps_ordered {s : Store} (hnd : (s.carts.map Cart.id).Nodup)
    {o : Cart} (ho : o ∈ s.carts) (hord : o.status = CartStatus.ordered)
    {user sid : Option String} {s2 : Store} {c2 : Cart}
    (heq : checkout s user sid = .ok (s2, c2)) : o ∈ s2.carts := by
  unfold checkout at heq
  split at heq <;> try exact Except.noConfusion heq
  rename_i c0 hfind
  obtain ⟨ha, hb⟩ := ok_pair_inj heq
  subst ha
  exact ordered_mem_save hnd ho hord (findCartFor_mem hfind)
    (findCartFor_active hfind) _ rfl

/-- C7: `POST /cart/checkout` fails with `NotFound` exactly when no active
cart resolves for the key; when one does, that cart's status transitions
from `active` to `ordered` and is persisted in place.  A second checkout on
the same key then fails with `NotFound` (when the checked-out cart was the
only cart matching the key, the active lookup no longer matches anything).
No exposed operation moves a cart out of `ordered`: under distinct ids,
every ordered cart survives every operation completely unchanged. -/
theorem C7_checkout_semantics (s : Store) :
    (∀ user sid, findCartFor s user sid = none →
      checkout s user sid = .error .notFound) ∧
    (∀ user sid c, findCartFor s user sid = some c →
      ∃ s2 c2, checkout s user sid = .ok (s2, c2) ∧
        c.status = CartStatus.active ∧ c2.status = CartStatus.ordered ∧
        c2.id = c.id ∧ c2.items = c.items ∧
        s2.carts = s.carts.map (fun d => if d.id = c.id then c2 else d)) ∧
    (∀ user sid c, findCartFor s user sid = some c →
      (∀ d ∈ s.carts, keyPred user sid d = true → d = c) →
      ∃ s2 c2, checkout s user sid = .ok (s2, c2) ∧
        checkout s2 user sid = .error .notFound) ∧
    ((s.carts.map Cart.id).Nodup →
      ∀ o ∈ s.carts, o.status = CartStatus.ordered →
      (∀ user sid name price img q s2 c2,
        addItem s user sid name price img q = .ok (s2, c2) → o ∈ s2.carts) ∧
      (∀ user sid name q s2 c2,
        updateQuantity s user sid name q = .ok (s2, c2) → o ∈ s2.carts) ∧
      (∀ user sid name s2 c2,
        removeItem s user sid name = .ok (s2, c2) → o ∈ s2.carts) ∧
      (∀ user sid s2 c2, clearCart s user sid = .ok (s2, c2) → o ∈ s2.carts) ∧
      (∀ user sid s2 oc, merge s user sid = .ok (s2, oc) → o ∈ s2.carts) ∧
      (∀ user sid s2 c2, checkout s user sid = .ok (s2, c2) → o ∈ s2.carts)) := by
  refine ⟨?_, ?_, ?_, ?_⟩
  · intro user sid h
    unfold checkout
    rw [h]
  · intro user sid c hfind
    have hrun : checkout s user sid
        = .ok (saveExisting s { c with status := CartStatus.ordered }) := by
      unfold checkout
      rw [hfind]
    refine ⟨(saveExisting s { c with status := CartStatus.ordered }).1,
            (saveExisting s { c with status := CartStatus.ordered }).2,
            ?_, findCartFor_active hfind, rfl, rfl, rfl, rfl⟩
    rw [hrun]
  · intro user sid c hfind huniq
    have hrun : checkout s user sid
        = .ok (saveExisting s { c with status := CartStatus.ordered }) := by
      unfold checkout
      rw [hfind]
    refine ⟨(saveExisting s { c with status := CartStatus.ordered }).1,
            (saveExisting s { c with status := CartStatus.ordered }).2, ?_, ?_⟩
    · rw [hrun]
    · have hfind2 : findCartFor
          (saveExisting s { c with status := CartStatus.ordered }).1 user sid = none := by
        unfold findCartFor
        apply List.find?_eq_none.2
        intro d hd
        rw [saveExisting_fst_carts] at hd
        rcases List.mem_map.1 hd with ⟨e, he, hde⟩
        split at hde
        · subst hde
          intro hpred
          exact CartStatus.noConfusion (keyPred_status hpred)
        · subst hde
          intro hpred
          have hec := huniq e he hpred
          rename_i hne
          exact hne (by rw [hec])
      unfold checkout
      rw [hfind2]
  · intro hnd o ho hord
    exact ⟨fun user sid name price img q s2 c2 heq =>
        addItem_keeps_ordered hnd ho hord heq,
      fun user sid name q s2 c2 heq => updateQuantity_keeps_ordered hnd ho hord heq,
      fun user sid name s2 c2 heq => removeItem_keeps_ordered hnd ho hord heq,
      fun user sid s2 c2 heq => clearCart_keeps_ordered hnd ho hord heq,
      fun user sid s2 oc heq => merge_keeps_ordered hnd ho hord heq,
      fun user sid s2 c2 heq => checkout_keeps_ordered hnd ho hord heq⟩

/-- A cart already checked out. -/
def orderedCart : Cart :=
  { id := 5, user := some "u7", sessionId := none, items := [],
    totalPrice := 0, status := CartStatus.ordered }

/-- A store with one active pen cart and one ordered cart. -/
def checkoutStore : Store := { carts := [penCart3, orderedCart], nextId := 6 }

/-- C7 witness: double checkout on the concrete pen cart — the first call
succeeds, the second fails with `NotFound`. -/
theorem C7_witness :
    findCartFor checkoutStore none (some "s1") = some penCart3 ∧
    (∀ d ∈ checkoutStore.carts, keyPred none (some "s1") d = true → d = penCart3) ∧
    (∃ s2 c2, checkout checkoutStore none (some "s1") = .ok (s2, c2) ∧
      checkout s2 none (some "s1") = .error .notFound) :=
  ⟨rfl, by decide,
   (C7_checkout_semantics checkoutStore).2.2.1 none (some "s1") penCart3 rfl (by decide)⟩

end MaishaCart
